import Mathlib

/-!
Shallow embedding of the hybrid retrieval engine of the RAG-Q-A-Service
repository (src/Search_api.py; src/Search_rudimentary.py contains textually
identical copies of `_normalize_scores` and `search_hybrid`).

Real-valued scores (vector similarities and FTS ranks, Python floats) are
modelled as rationals (ℚ).  The external artifacts loaded in
`SearchEngine.__init__` — the sentence-transformer model plus faiss index,
the faiss-to-db id map, the sqlite chunk store, the FTS engine, and the
sources metadata file — are modelled as an environment record of oracle
functions, since they are outside the repository (offline build artifacts).
-/

namespace RagService

/-- A row of the `chunks` table (`SELECT * FROM chunks WHERE rowid = ?`). -/
structure Row where
  chunk_text : String
  source_file : String
  page_number : Nat
deriving DecidableEq, Repr

/-- A per-query candidate result dict as built by `search_baseline`
(Search_api.py lines 41-44): keys db_id, vector_score, text, source, page.
`search_hybrid` later adds the key final_score (line 66); its presence is
modelled with an `Option` that is `none` for baseline results. -/
structure Candidate where
  db_id : Nat
  vector_score : ℚ
  text : String
  source : String
  page : Nat
  final_score : Option ℚ
deriving DecidableEq, Repr

/-- One entry of `source_updated.json` as used by `format_contexts`:
`.get('title')` / `.get('url')` can be absent. -/
structure SourceInfo where
  title : Option String
  url : Option String
deriving DecidableEq, Repr

/-- The read-only artifacts behind `SearchEngine` and the module-level
`engine.sources` lookup.  `index_search` composes `model.encode` with
`index.search` for a query string and a requested count and yields the
(score, faiss_idx) pairs of `zip(scores[0], faiss_indices[0])`;
`faiss_to_db_id` is the id map; `db_fetch` is the sqlite rowid lookup;
`fts_query` runs the FTS `MATCH` statement on a sanitized query, yielding
(rowid, rank) rows; `sources` is the per-document metadata map. -/
structure EngineEnv where
  index_search : String → Nat → List (ℚ × Int)
  faiss_to_db_id : Nat → Nat
  db_fetch : Nat → Option Row
  fts_query : String → List (Nat × ℚ)
  sources : String → Option SourceInfo

/-- Embeds `SearchEngine._normalize_scores` (Search_api.py lines 22-27).  Python
`min`/`max` raise on an empty list, hence the `Option`: `none` models the
EmptyInput failure. -/
def normalize_scores (scores : List ℚ) : Option (List ℚ) :=
  match scores.min?, scores.max? with
  | some min_score, some max_score =>
    if max_score = min_score then
      some (List.replicate scores.length 1)
    else
      some (scores.map fun score => (score - min_score) / (max_score - min_score))
  | _, _ => none

/-- Embeds `SearchEngine.search_baseline` (lines 29-45): iterate over the
(score, faiss_idx) pairs, skip the -1 sentinel, resolve the db id, skip
rows the store does not return, and build the result dicts in order. -/
def search_baseline (env : EngineEnv) (query : String) (k : Nat) : List Candidate :=
  (env.index_search query k).filterMap fun sf =>
    if sf.2 = -1 then none
    else
      match env.db_fetch (env.faiss_to_db_id sf.2.toNat) with
      | some row =>
        some { db_id := env.faiss_to_db_id sf.2.toNat
               vector_score := sf.1
               text := row.chunk_text
               source := row.source_file
               page := row.page_number
               final_score := none }
      | none => none

/-- The query sanitization `re.sub(r'[^\w\s]', '', query)` of line 53:
keep word characters and whitespace, drop everything else. -/
def sanitize_query (query : String) : String :=
  String.mk (query.data.filter fun c => c.isAlphanum || c = '_' || c.isWhitespace)

/-- Embeds `min_fts_score = min(fts_scores.values()) - 1 if fts_scores else -100`
(line 59).  The dict values are the second components of the FTS rows. -/
def min_fts_score (fts_scores : List (Nat × ℚ)) : ℚ :=
  match (fts_scores.map Prod.snd).min? with
  | some m => m - 1
  | none => -100

/-- Embeds `keyword_scores = [fts_scores.get(res['db_id'], min_fts_score) for
res in initial_results]` (line 60).  The FTS rows have distinct rowids, so the
first-match `List.lookup` agrees with the Python dict lookup. -/
def keyword_scores (fts_scores : List (Nat × ℚ)) (initial_results : List Candidate) :
    List ℚ :=
  initial_results.map fun res =>
    (fts_scores.lookup res.db_id).getD (min_fts_score fts_scores)

/-- The sort key of line 68: `sorted(..., key=lambda x: x['final_score'],
reverse=True)`.  Every candidate reaching the sort has `final_score` set
(line 66), so the `getD 0` default is never relevant. -/
def final_score_ge (x y : Candidate) : Prop :=
  y.final_score.getD 0 ≤ x.final_score.getD 0

instance : DecidableRel final_score_ge := fun x y =>
  inferInstanceAs (Decidable (_ ≤ _))

instance : IsTotal Candidate final_score_ge :=
  ⟨fun x y => le_total (y.final_score.getD 0) (x.final_score.getD 0)⟩

instance : IsTrans Candidate final_score_ge :=
  ⟨fun _ _ _ h h2 => le_trans h2 h⟩

/-- Embeds `SearchEngine.search_hybrid` (lines 47-69).  Python `sorted` with
`reverse=True` is the stable descending sort, modelled by
`List.insertionSort final_score_ge` (insertion sort with a total preorder
is stable and sorts descending by the chosen key).  The final `match` arm
for a failed normalization is unreachable — the pool is non-empty there, so
both score lists are non-empty (in Python no exception can be raised). -/
def search_hybrid (env : EngineEnv) (query : String) (k : Nat) (alpha : ℚ) :
    List Candidate :=
  let candidate_k := k * 6
  let initial_results := search_baseline env query candidate_k
  if initial_results.isEmpty then []
  else
    let sanitized_query := sanitize_query query
    let fts_scores := env.fts_query sanitized_query
    let vector_scores := initial_results.map fun res => res.vector_score
    let kw := keyword_scores fts_scores initial_results
    match normalize_scores vector_scores, normalize_scores kw with
    | some norm_vector_scores, some norm_keyword_scores =>
      let scored := (initial_results.zip (norm_vector_scores.zip norm_keyword_scores)).map
        fun p => { p.1 with final_score := some (alpha * p.2.1 + (1 - alpha) * p.2.2) }
      (scored.insertionSort final_score_ge).take k
    | _, _ => []

/-- Embeds `score_key = 'final_score' if 'final_score' in res else
'vector_score'` followed by `res[score_key]` — the idiom shared by `format_contexts`
(line 86 with line 91) and `get_extractive_answer` (lines 101-103). -/
def relevant_score (res : Candidate) : ℚ :=
  match res.final_score with
  | some s => s
  | none => res.vector_score

/-- One entry of the `contexts` array of the response. -/
structure ContextEntry where
  text : String
  source_title : Option String
  source_link : Option String
  score : ℚ
deriving DecidableEq, Repr

/-- Embeds `format_contexts` (lines 81-93): `engine.sources.get(res['source'], {})`
followed by `.get('title')` / `.get('url')` yields `none` fields when the
source is unknown. -/
def format_contexts (env : EngineEnv) (results : List Candidate) : List ContextEntry :=
  results.map fun res =>
    let source_info := env.sources res.source
    { text := res.text
      source_title := match source_info with
        | some si => si.title
        | none => none
      source_link := match source_info with
        | some si => si.url
        | none => none
      score := relevant_score res }

/-- Embeds `get_extractive_answer` (lines 95-106): `none` models the Python `None`
returned both for an empty result list and for a below-threshold top score. -/
def get_extractive_answer (results : List Candidate) (threshold : ℚ) : Option String :=
  match results with
  | [] => none
  | top_result :: _ =>
    if relevant_score top_result < threshold then none
    else some top_result.text

/-- The JSON request body of `POST /ask`: the optional fields `q`, `k`
(default 3) and `mode` (default hybrid). -/
structure AskRequest where
  q : Option String
  k : Option Nat
  mode : Option String
deriving DecidableEq, Repr

/-- The success response assembled at lines 130-134. -/
structure AskResponse where
  answer : Option String
  contexts : List ContextEntry
  reranker_used : Bool
deriving DecidableEq, Repr

/-- The `ask` route handler (lines 108-136).  `Except.error` models the 400
`jsonify({"error": ...})` early returns; `data = none` models a request body
that fails `request.get_json()` (and an empty body is equivalently caught by
the missing-`q` branch).  The defaults `k = 3`, `mode = hybrid`,
`alpha = 0.6` (of `search_hybrid`) and `threshold = 0.5` (of
`get_extractive_answer`) are applied exactly where the Python defaults are. -/
def ask (env : EngineEnv) (data : Option AskRequest) : Except String AskResponse :=
  match data with
  | none => Except.error "Missing q (query) in request body"
  | some d =>
    match d.q with
    | none => Except.error "Missing q (query) in request body"
    | some query =>
      let k := d.k.getD 3
      let mode := d.mode.getD "hybrid"
      if mode = "baseline" then
        let results := search_baseline env query k
        Except.ok { answer := get_extractive_answer results (1 / 2)
                    contexts := format_contexts env results
                    reranker_used := false }
      else if mode = "hybrid" then
        let results := search_hybrid env query k (6 / 10)
        Except.ok { answer := get_extractive_answer results (1 / 2)
                    contexts := format_contexts env results
                    reranker_used := true }
      else
        Except.error "Invalid mode. Choose baseline or hybrid."

/-! ### Helper lemmas -/

/-- A `min?` witness is a member and a lower bound (specialized to ℚ). -/
theorem min?_spec {l : List ℚ} {m : ℚ} (h : l.min? = some m) :
    m ∈ l ∧ ∀ x ∈ l, m ≤ x :=
  ⟨List.min?_mem min_choice h,
   fun x hx => (List.le_min?_iff (fun _ _ _ => le_min_iff) h).mp (le_refl m) x hx⟩

/-- A `max?` witness is a member and an upper bound (specialized to ℚ). -/
theorem max?_spec {l : List ℚ} {M : ℚ} (h : l.max? = some M) :
    M ∈ l ∧ ∀ x ∈ l, x ≤ M :=
  ⟨List.max?_mem max_choice h,
   fun x hx => (List.max?_le_iff (fun _ _ _ => max_le_iff) h).mp (le_refl M) x hx⟩

/-- A non-empty score list has a `min?` and a `max?`. -/
theorem minmax_of_ne_nil {l : List ℚ} (h : l ≠ []) :
    ∃ m M, l.min? = some m ∧ l.max? = some M := by
  cases hm : l.min? with
  | none => exact absurd (List.min?_eq_none_iff.mp hm) h
  | some m =>
    cases hM : l.max? with
    | none => exact absurd (List.max?_eq_none_iff.mp hM) h
    | some M => exact ⟨m, M, rfl, rfl⟩

/-- Normalization succeeds exactly on non-empty inputs and keeps the length. -/
theorem normalize_scores_some {l : List ℚ} (h : l ≠ []) :
    ∃ out, normalize_scores l = some out ∧ out.length = l.length := by
  obtain ⟨m, M, hm, hM⟩ := minmax_of_ne_nil h
  unfold normalize_scores
  rw [hm, hM]
  by_cases hMm : M = m
  · exact ⟨List.replicate l.length 1, by simp [hMm], by simp⟩
  · exact ⟨l.map fun s => (s - m) / (M - m), by simp [hMm], by simp⟩

/-- Every candidate built by `search_baseline` has no `final_score` field. -/
theorem search_baseline_final_score {env : EngineEnv} {query : String} {k : Nat}
    {c : Candidate} (hc : c ∈ search_baseline env query k) :
    c.final_score = none := by
  unfold search_baseline at hc
  obtain ⟨sf, _, hsf⟩ := List.mem_filterMap.mp hc
  by_cases hneg : sf.2 = -1
  · simp [hneg] at hsf
  · rw [if_neg hneg] at hsf
    cases hrow : env.db_fetch (env.faiss_to_db_id sf.2.toNat) with
    | none => rw [hrow] at hsf; cases hsf
    | some row => rw [hrow] at hsf; cases hsf; rfl

/-- Overwriting an absent `final_score` with `none` is the identity. -/
theorem candidate_erase_final {c : Candidate} (h : c.final_score = none) :
    { c with final_score := none } = c := by
  cases c
  simp_all

/-- The list `keyword_scores` yields has one rank per candidate. -/
theorem keyword_scores_length (fts_scores : List (Nat × ℚ)) (pool : List Candidate) :
    (keyword_scores fts_scores pool).length = pool.length := by
  unfold keyword_scores
  simp

/-- On an empty candidate pool `search_hybrid` short-circuits to `[]`. -/
theorem search_hybrid_of_empty {env : EngineEnv} {query : String} {k : Nat} {alpha : ℚ}
    (h : search_baseline env query (k * 6) = []) :
    search_hybrid env query k alpha = [] := by
  unfold search_hybrid
  simp [h]

/-- Unfolding equation for `search_hybrid` on a non-empty pool, phrased by the
two successful normalization calls. -/
theorem search_hybrid_eq {env : EngineEnv} {query : String} {k : Nat} {alpha : ℚ}
    {nv nk : List ℚ}
    (hnv : normalize_scores
      ((search_baseline env query (k * 6)).map fun res => res.vector_score) = some nv)
    (hnk : normalize_scores (keyword_scores (env.fts_query (sanitize_query query))
      (search_baseline env query (k * 6))) = some nk) :
    search_hybrid env query k alpha =
      ((((search_baseline env query (k * 6)).zip (nv.zip nk)).map fun p =>
        { p.1 with final_score := some (alpha * p.2.1 + (1 - alpha) * p.2.2) }).insertionSort
          final_score_ge).take k := by
  have hne : ¬ (search_baseline env query (k * 6)).isEmpty = true := by
    intro hemp
    rw [List.isEmpty_iff.mp hemp] at hnv
    simp [normalize_scores] at hnv
  unfold search_hybrid
  rw [if_neg hne]
  simp only [hnv, hnk]

/-! ### C2 -/

/-- C2: for every non-empty score list, `_normalize_scores` returns a list of
the same length in the same order with each element mapped to
`(score - min) / (max - min)`; if all inputs are equal it returns `1.0`
everywhere; on the empty list it fails (returns `none`, the EmptyInput
condition) instead of producing a value. -/
theorem normalizer_contract (l : List ℚ) :
    normalize_scores ([] : List ℚ) = none ∧
    (l ≠ [] →
      ∃ m M out, l.min? = some m ∧ l.max? = some M ∧
        normalize_scores l = some out ∧
        out.length = l.length ∧
        (¬ (∀ a ∈ l, ∀ b ∈ l, a = b) → out = l.map fun s => (s - m) / (M - m)) ∧
        ((∀ a ∈ l, ∀ b ∈ l, a = b) → out = List.replicate l.length 1)) := by
  refine ⟨rfl, fun h => ?_⟩
  obtain ⟨m, M, hm, hM⟩ := minmax_of_ne_nil h
  have hmspec := min?_spec hm
  have hMspec := max?_spec hM
  by_cases hMm : M = m
  · have hall : ∀ a ∈ l, ∀ b ∈ l, a = b := by
      intro a ha b hb
      have h1 : a ≤ M := hMspec.2 a ha
      have h2 : m ≤ a := hmspec.2 a ha
      have h3 : b ≤ M := hMspec.2 b hb
      have h4 : m ≤ b := hmspec.2 b hb
      rw [hMm] at h1 h3
      have ha' : a = m := le_antisymm h1 h2
      have hb' : b = m := le_antisymm h3 h4
      rw [ha', hb']
    exact ⟨m, M, List.replicate l.length 1, hm, hM,
      by unfold normalize_scores; rw [hm, hM]; simp [hMm], by simp,
      fun hna => absurd hall hna, fun _ => rfl⟩
  · refine ⟨m, M, l.map fun s => (s - m) / (M - m), hm, hM,
      by unfold normalize_scores; rw [hm, hM]; simp [hMm], by simp,
      fun _ => rfl, fun hall => absurd (hall M hMspec.1 m hmspec.1) hMm⟩

/-- Witness for C2 at the concrete input `[1, 2]`. -/
theorem normalizer_contract_witness :
    ∃ m M out, ([1, 2] : List ℚ).min? = some m ∧ ([1, 2] : List ℚ).max? = some M ∧
      normalize_scores [1, 2] = some out ∧
      out.length = ([1, 2] : List ℚ).length ∧
      (¬ (∀ a ∈ ([1, 2] : List ℚ), ∀ b ∈ ([1, 2] : List ℚ), a = b) →
        out = ([1, 2] : List ℚ).map fun s => (s - m) / (M - m)) ∧
      ((∀ a ∈ ([1, 2] : List ℚ), ∀ b ∈ ([1, 2] : List ℚ), a = b) →
        out = List.replicate ([1, 2] : List ℚ).length 1) :=
  (normalizer_contract [1, 2]).2 (by decide)

/-! ### C3 -/

/-- C3: inside hybrid fusion, a candidate whose id is absent from the lexical
match set receives the synthetic rank `min(observed lexical ranks) - 1`,
which is strictly less than every observed real rank (in particular the
minimum one, never equal to it); if no candidate matched lexically at all,
it receives the fixed sentinel `-100`. -/
theorem lexical_fallback_rank (fts_scores : List (Nat × ℚ)) (pool : List Candidate)
    (i : Nat) (res : Candidate) (hres : pool[i]? = some res)
    (habsent : res.db_id ∉ fts_scores.map Prod.fst) :
    (fts_scores = [] → (keyword_scores fts_scores pool)[i]? = some (-100)) ∧
    (∀ m, (fts_scores.map Prod.snd).min? = some m →
      (keyword_scores fts_scores pool)[i]? = some (m - 1) ∧
      m - 1 < m ∧ ∀ rank ∈ fts_scores.map Prod.snd, m - 1 < rank) := by
  have hlookup : fts_scores.lookup res.db_id = none := by
    rw [List.lookup_eq_none_iff]
    intro p hp
    have : p.1 ∈ fts_scores.map Prod.fst := List.mem_map.mpr ⟨p, hp, rfl⟩
    have hne : res.db_id ≠ p.1 := fun he => habsent (he ▸ this)
    simpa using hne
  have hkw : (keyword_scores fts_scores pool)[i]? =
      some (min_fts_score fts_scores) := by
    unfold keyword_scores
    rw [List.getElem?_map, hres]
    simp [hlookup]
  constructor
  · intro hnil
    rw [hkw]
    unfold min_fts_score
    rw [hnil]
    rfl
  · intro m hmin
    have hmspec := min?_spec hmin
    refine ⟨?_, by linarith, fun rank hrank => by
      have := hmspec.2 rank hrank; linarith⟩
    rw [hkw]
    unfold min_fts_score
    rw [hmin]

/-- Witness for C3 with one lexical match `(rowid 5, rank -3)` and one
candidate (id 7) absent from the match set. -/
theorem lexical_fallback_rank_witness :
    ([((5 : Nat), (-3 : ℚ))] = ([] : List (Nat × ℚ)) →
      (keyword_scores [((5 : Nat), (-3 : ℚ))]
        [{ db_id := 7, vector_score := 1, text := "A", source := "s", page := 1,
           final_score := none }])[0]? = some ((-100 : ℚ))) ∧
    (∀ m, (([((5 : Nat), (-3 : ℚ))].map Prod.snd).min? = some m) →
      (keyword_scores [((5 : Nat), (-3 : ℚ))]
        [{ db_id := 7, vector_score := 1, text := "A", source := "s", page := 1,
           final_score := none }])[0]? = some (m - 1) ∧
      m - 1 < m ∧ ∀ rank ∈ [((5 : Nat), (-3 : ℚ))].map Prod.snd, m - 1 < rank) :=
  lexical_fallback_rank [((5 : Nat), (-3 : ℚ))]
    [{ db_id := 7, vector_score := 1, text := "A", source := "s", page := 1,
       final_score := none }] 0
    { db_id := 7, vector_score := 1, text := "A", source := "s", page := 1,
      final_score := none } rfl (by decide)

/-! ### C1 -/

/-- C1: for every candidate pool produced by the baseline vector search,
every `alpha` in `[0, 1]` and every `k`, the hybrid ranker gives each
candidate the fused score `alpha * norm_vector + (1 - alpha) * norm_lexical`
(the two signals normalized independently over the pool), sorts by fused
score descending, and returns exactly the first `k` of that order (fewer
when the pool is smaller than `k`). -/
theorem hybrid_fuse_sort_take (env : EngineEnv) (query : String) (k : Nat) (alpha : ℚ)
    (h0 : 0 ≤ alpha) (h1 : alpha ≤ 1)
    (hpool : search_baseline env query (6 * k) ≠ []) :
    ∃ nv nk rest,
      normalize_scores
        ((search_baseline env query (6 * k)).map fun res => res.vector_score) = some nv ∧
      normalize_scores (keyword_scores (env.fts_query (sanitize_query query))
        (search_baseline env query (6 * k))) = some nk ∧
      (search_hybrid env query k alpha ++ rest).Perm
        (((search_baseline env query (6 * k)).zip (nv.zip nk)).map fun p =>
          { p.1 with final_score := some (alpha * p.2.1 + (1 - alpha) * p.2.2) }) ∧
      List.Sorted final_score_ge (search_hybrid env query k alpha ++ rest) ∧
      search_hybrid env query k alpha = (search_hybrid env query k alpha ++ rest).take k ∧
      (search_hybrid env query k alpha).length =
        min k (search_baseline env query (6 * k)).length := by
  rw [Nat.mul_comm 6 k] at hpool ⊢
  have hv : (search_baseline env query (k * 6)).map (fun res => res.vector_score) ≠ [] := by
    simpa using hpool
  obtain ⟨nv, hnv, hnvlen⟩ := normalize_scores_some hv
  have hkwne : keyword_scores (env.fts_query (sanitize_query query))
      (search_baseline env query (k * 6)) ≠ [] := by
    intro hnil
    apply hpool
    have hlen := keyword_scores_length (env.fts_query (sanitize_query query))
      (search_baseline env query (k * 6))
    rw [hnil] at hlen
    exact List.length_eq_zero.mp hlen.symm
  obtain ⟨nk, hnk, hnklen⟩ := normalize_scores_some hkwne
  set pool := search_baseline env query (k * 6) with hpooldef
  set scored := ((pool.zip (nv.zip nk)).map fun p =>
    { p.1 with final_score := some (alpha * p.2.1 + (1 - alpha) * p.2.2) }) with hscored
  have heq : search_hybrid env query k alpha =
      (scored.insertionSort final_score_ge).take k := search_hybrid_eq hnv hnk
  refine ⟨nv, nk, (scored.insertionSort final_score_ge).drop k, hnv, hnk, ?_, ?_, ?_, ?_⟩
  · rw [heq, List.take_append_drop]
    exact List.perm_insertionSort final_score_ge scored
  · rw [heq, List.take_append_drop]
    exact List.sorted_insertionSort final_score_ge scored
  · rw [heq, List.take_append_drop]
  · rw [heq, List.length_take, List.length_insertionSort]
    have hlen : scored.length = pool.length := by
      rw [hscored]
      simp only [List.length_map, List.length_zip, List.length_zip]
      rw [hnvlen, hnklen, keyword_scores_length]
      simp
    rw [hlen]

/-! ### C4 -/

/-- C4: the hybrid path requests exactly `candidate_k = 6 * k` candidates
from the baseline vector path: its output depends on the baseline search
only through the pool requested at count `6 * k` (together with the lexical
store).  In particular, with `k = 3` only the 18-candidate baseline request
matters. -/
theorem hybrid_requests_six_k (env1 env2 : EngineEnv) (query : String) (k : Nat)
    (alpha : ℚ)
    (hbase : search_baseline env1 query (6 * k) = search_baseline env2 query (6 * k))
    (hfts : env1.fts_query = env2.fts_query) :
    search_hybrid env1 query k alpha = search_hybrid env2 query k alpha := by
  rw [Nat.mul_comm 6 k] at hbase
  unfold search_hybrid
  simp only [hbase, hfts]

/-! ### C8 -/

/-- C8: when the baseline vector search returns an empty candidate pool, the
hybrid search returns an empty result, and it does so for every possible
lexical store — i.e. without the lexical index being consulted. -/
theorem hybrid_empty_pool (env : EngineEnv) (query : String) (k : Nat) (alpha : ℚ)
    (hpool : search_baseline env query (6 * k) = []) :
    search_hybrid env query k alpha = [] ∧
      ∀ fq, search_hybrid { env with fts_query := fq } query k alpha = [] := by
  rw [Nat.mul_comm 6 k] at hpool
  exact ⟨search_hybrid_of_empty hpool, fun fq => search_hybrid_of_empty hpool⟩

/-! ### C9 -/

/-- Pushing two successive `final_score` updates together. -/
theorem candidate_update_update (x : Candidate) (v : Option ℚ) :
    ({ { x with final_score := v } with final_score := none } : Candidate) =
      { x with final_score := none } := by
  cases x
  rfl

/-- C9: every hybrid result is a member of the initial vector-candidate pool
(up to the fused score written into it): erasing the fused score recovers a
candidate the baseline stage retrieved.  Lexical matching re-scores and
re-orders, never introduces a new fragment. -/
theorem hybrid_results_from_pool (env : EngineEnv) (query : String) (k : Nat)
    (alpha : ℚ) (c : Candidate) (hc : c ∈ search_hybrid env query k alpha) :
    { c with final_score := none } ∈ search_baseline env query (6 * k) := by
  rw [Nat.mul_comm 6 k]
  by_cases hpool : search_baseline env query (k * 6) = []
  · rw [search_hybrid_of_empty hpool] at hc
    cases hc
  · have hv : (search_baseline env query (k * 6)).map (fun res => res.vector_score) ≠ [] := by
      simpa using hpool
    obtain ⟨nv, hnv, _⟩ := normalize_scores_some hv
    have hkwne : keyword_scores (env.fts_query (sanitize_query query))
        (search_baseline env query (k * 6)) ≠ [] := by
      intro hnil
      apply hpool
      have hlen := keyword_scores_length (env.fts_query (sanitize_query query))
        (search_baseline env query (k * 6))
      rw [hnil] at hlen
      exact List.length_eq_zero.mp hlen.symm
    obtain ⟨nk, hnk, _⟩ := normalize_scores_some hkwne
    rw [search_hybrid_eq hnv hnk] at hc
    have hc2 := List.mem_of_mem_take hc
    have hc3 := (List.mem_insertionSort final_score_ge).mp hc2
    obtain ⟨p, hp, hpc⟩ := List.mem_map.mp hc3
    have hmem : p.1 ∈ search_baseline env query (k * 6) :=
      (List.of_mem_zip (by simpa using hp)).1
    have hnone : p.1.final_score = none := search_baseline_final_score hmem
    rw [← hpc, candidate_update_update, candidate_erase_final hnone]
    exact hmem

/-! ### C10 -/

/-- C10: when candidates receive equal fused scores, the hybrid output keeps
their relative order from the baseline ranking: the descending sort on fused
scores is stable with respect to the scored pool order (any equal-score pair
that is a sublist of the scored pool is still a sublist of the sorted list),
and the hybrid output is exactly the `k`-prefix of that stable sort. -/
theorem hybrid_sort_stability (env : EngineEnv) (query : String) (k : Nat) (alpha : ℚ)
    (hpool : search_baseline env query (6 * k) ≠ []) :
    ∃ nv nk,
      normalize_scores
        ((search_baseline env query (6 * k)).map fun res => res.vector_score) = some nv ∧
      normalize_scores (keyword_scores (env.fts_query (sanitize_query query))
        (search_baseline env query (6 * k))) = some nk ∧
      (∀ a b,
        List.Sublist [a, b]
          (((search_baseline env query (6 * k)).zip (nv.zip nk)).map fun p =>
            { p.1 with final_score := some (alpha * p.2.1 + (1 - alpha) * p.2.2) }) →
        a.final_score = b.final_score →
        List.Sublist [a, b]
          ((((search_baseline env query (6 * k)).zip (nv.zip nk)).map fun p =>
            { p.1 with final_score := some (alpha * p.2.1 + (1 - alpha) * p.2.2) }).insertionSort
              final_score_ge)) ∧
      search_hybrid env query k alpha =
        (((((search_baseline env query (6 * k)).zip (nv.zip nk)).map fun p =>
          { p.1 with final_score := some (alpha * p.2.1 + (1 - alpha) * p.2.2) }).insertionSort
            final_score_ge)).take k := by
  rw [Nat.mul_comm 6 k] at hpool ⊢
  have hv : (search_baseline env query (k * 6)).map (fun res => res.vector_score) ≠ [] := by
    simpa using hpool
  obtain ⟨nv, hnv, _⟩ := normalize_scores_some hv
  have hkwne : keyword_scores (env.fts_query (sanitize_query query))
      (search_baseline env query (k * 6)) ≠ [] := by
    intro hnil
    apply hpool
    have hlen := keyword_scores_length (env.fts_query (sanitize_query query))
      (search_baseline env query (k * 6))
    rw [hnil] at hlen
    exact List.length_eq_zero.mp hlen.symm
  obtain ⟨nk, hnk, _⟩ := normalize_scores_some hkwne
  refine ⟨nv, nk, hnv, hnk, fun a b hab heq => ?_, search_hybrid_eq hnv hnk⟩
  apply List.pair_sublist_insertionSort ?_ hab
  unfold final_score_ge
  rw [heq]

/-! ### C5 -/

/-- C5: the answer selector abstains (returns no answer) exactly when the
ranked list is empty or the top result's relevant score (fused if present,
raw vector otherwise) is strictly below the threshold; otherwise it returns
the top result's text verbatim; and on a non-empty list the supporting
contexts are built non-empty regardless of abstention. -/
theorem answer_selector_abstention (results : List Candidate) (threshold : ℚ)
    (env : EngineEnv) :
    (get_extractive_answer results threshold = none ↔
      results = [] ∨
        ∃ top rest, results = top :: rest ∧ relevant_score top < threshold) ∧
    (∀ top rest, results = top :: rest → ¬ relevant_score top < threshold →
      get_extractive_answer results threshold = some top.text) ∧
    (results ≠ [] → format_contexts env results ≠ []) := by
  refine ⟨?_, ?_, ?_⟩
  · cases results with
    | nil => simp [get_extractive_answer]
    | cons top rest =>
      by_cases h : relevant_score top < threshold
      · exact iff_of_true (by simp [get_extractive_answer, h])
          (Or.inr ⟨top, rest, rfl, h⟩)
      · apply iff_of_false (by simp [get_extractive_answer, h])
        rintro (hnil | ⟨top2, rest2, heq, hlt⟩)
        · cases hnil
        · cases heq
          exact h hlt
  · rintro top rest rfl hnlt
    simp [get_extractive_answer, hnlt]
  · intro hne
    cases results with
    | nil => exact absurd rfl hne
    | cons top rest => simp [format_contexts]

/-- Witness for C5: a single candidate with fused score 1 and threshold 1/2
yields its text verbatim (and the abstention condition is false). -/
theorem answer_selector_abstention_witness :
    get_extractive_answer
      [{ db_id := 0, vector_score := 1, text := "A", source := "s", page := 1,
         final_score := some 1 }] (1 / 2) = some "A" :=
  (answer_selector_abstention
    [{ db_id := 0, vector_score := 1, text := "A", source := "s", page := 1,
       final_score := some 1 }] (1 / 2)
    { index_search := fun _ _ => []
      faiss_to_db_id := fun n => n
      db_fetch := fun _ => none
      fts_query := fun _ => []
      sources := fun _ => none }).2.1
    { db_id := 0, vector_score := 1, text := "A", source := "s", page := 1,
      final_score := some 1 } [] rfl (by norm_num [relevant_score])

/-! ### C6 -/

/-- The non-empty pool always yields the two successful normalizations. -/
theorem search_hybrid_normalizers (env : EngineEnv) (query : String) (k : Nat)
    (hpool : search_baseline env query (k * 6) ≠ []) :
    ∃ nv nk,
      normalize_scores
        ((search_baseline env query (k * 6)).map fun res => res.vector_score) = some nv ∧
      normalize_scores (keyword_scores (env.fts_query (sanitize_query query))
        (search_baseline env query (k * 6))) = some nk := by
  have hv : (search_baseline env query (k * 6)).map (fun res => res.vector_score) ≠ [] := by
    simpa using hpool
  obtain ⟨nv, hnv, _⟩ := normalize_scores_some hv
  have hkwne : keyword_scores (env.fts_query (sanitize_query query))
      (search_baseline env query (k * 6)) ≠ [] := by
    intro hnil
    apply hpool
    have hlen := keyword_scores_length (env.fts_query (sanitize_query query))
      (search_baseline env query (k * 6))
    rw [hnil] at hlen
    exact List.length_eq_zero.mp hlen.symm
  obtain ⟨nk, hnk, _⟩ := normalize_scores_some hkwne
  exact ⟨nv, nk, hnv, hnk⟩

/-- Every hybrid result carries a fused score. -/
theorem search_hybrid_final_score_isSome {env : EngineEnv} {query : String} {k : Nat}
    {alpha : ℚ} {c : Candidate} (hc : c ∈ search_hybrid env query k alpha) :
    c.final_score.isSome := by
  by_cases hpool : search_baseline env query (k * 6) = []
  · rw [search_hybrid_of_empty hpool] at hc
    cases hc
  · obtain ⟨nv, nk, hnv, hnk⟩ := search_hybrid_normalizers env query k hpool
    rw [search_hybrid_eq hnv hnk] at hc
    have hc2 := List.mem_of_mem_take hc
    have hc3 := (List.mem_insertionSort final_score_ge).mp hc2
    obtain ⟨p, _, hpc⟩ := List.mem_map.mp hc3
    rw [← hpc]
    rfl

/-- The scores placed into the response contexts are the per-candidate
relevant scores. -/
theorem format_contexts_scores (env : EngineEnv) (results : List Candidate) :
    (format_contexts env results).map (fun ctx => ctx.score) =
      results.map relevant_score := by
  unfold format_contexts
  rw [List.map_map]
  rfl

/-- C6: a request with `mode = baseline` produces the `reranker_used = false`
response built from the baseline results, whose context scores are exactly
the raw vector scores; `mode = hybrid` produces the `reranker_used = true`
response built from the hybrid results, which all carry fused scores, and
whose context scores are exactly those fused scores. -/
theorem mode_flag_correctness (env : EngineEnv) (d : AskRequest) (query : String)
    (hq : d.q = some query) :
    (d.mode = some "baseline" →
      ask env (some d) = Except.ok
        { answer := get_extractive_answer (search_baseline env query (d.k.getD 3)) (1 / 2)
          contexts := format_contexts env (search_baseline env query (d.k.getD 3))
          reranker_used := false } ∧
      (format_contexts env (search_baseline env query (d.k.getD 3))).map
          (fun ctx => ctx.score) =
        (search_baseline env query (d.k.getD 3)).map fun res => res.vector_score) ∧
    (d.mode = some "hybrid" →
      ask env (some d) = Except.ok
        { answer := get_extractive_answer
            (search_hybrid env query (d.k.getD 3) (6 / 10)) (1 / 2)
          contexts := format_contexts env (search_hybrid env query (d.k.getD 3) (6 / 10))
          reranker_used := true } ∧
      (∀ c ∈ search_hybrid env query (d.k.getD 3) (6 / 10), c.final_score.isSome) ∧
      (format_contexts env (search_hybrid env query (d.k.getD 3) (6 / 10))).map
          (fun ctx => ctx.score) =
        (search_hybrid env query (d.k.getD 3) (6 / 10)).map
          fun res => res.final_score.getD res.vector_score) := by
  constructor
  · intro hm
    constructor
    · unfold ask
      simp [hq, hm]
    · rw [format_contexts_scores]
      apply List.map_congr_left
      intro c hc
      have hnone : c.final_score = none := search_baseline_final_score hc
      unfold relevant_score
      rw [hnone]
  · intro hm
    refine ⟨?_, fun c hc => search_hybrid_final_score_isSome hc, ?_⟩
    · unfold ask
      simp [hq, hm]
    · rw [format_contexts_scores]
      apply List.map_congr_left
      intro c hc
      have hsome := search_hybrid_final_score_isSome hc
      obtain ⟨s, hs⟩ := Option.isSome_iff_exists.mp hsome
      unfold relevant_score
      rw [hs]
      rfl

/-! ### C7 -/

/-- C7 (amended): a request with missing query text, or with an unknown mode,
fails with the InvalidArgument condition (a 400 error) immediately, and the
outcome is independent of the whole retrieval environment — no retrieval
work is performed.  (The `k < 1` part of the original claim is refuted by
the counterexample below: `k` is never validated.) -/
theorem invalid_request_rejected (env env2 : EngineEnv) (data : Option AskRequest) :
    ((data = none ∨ ∃ d, data = some d ∧ d.q = none) →
      ask env data = Except.error "Missing q (query) in request body" ∧
      ask env data = ask env2 data) ∧
    (∀ d query m, data = some d → d.q = some query → d.mode = some m →
      m ≠ "baseline" → m ≠ "hybrid" →
      ask env data = Except.error "Invalid mode. Choose baseline or hybrid." ∧
      ask env data = ask env2 data) := by
  constructor
  · rintro (rfl | ⟨d, rfl, hd⟩)
    · exact ⟨rfl, rfl⟩
    · unfold ask
      simp [hd]
  · rintro d query m rfl hq hm hb hh
    unfold ask
    simp [hq, hm, hb, hh]

/-! ### Concrete environments for witnesses -/

/-- A two-fragment environment: fragment 0 ("A", vector score 1) matches the
lexical query with rank -10; fragment 1 ("B", vector score 0) does not. -/
def envW : EngineEnv where
  index_search := fun _ n =>
    if n = 6 then [((1 : ℚ), (0 : Int)), ((0 : ℚ), (1 : Int))] else []
  faiss_to_db_id := fun n => n
  db_fetch := fun n =>
    if n = 0 then some { chunk_text := "A", source_file := "s", page_number := 1 }
    else some { chunk_text := "B", source_file := "s", page_number := 2 }
  fts_query := fun _ => [(0, -10)]
  sources := fun _ => some { title := some "T", url := some "U" }

/-- The same environment with an empty vector index. -/
def envE : EngineEnv :=
  { envW with index_search := fun _ _ => [] }

/-- Two environments whose baseline searches agree exactly at request count
18 = 6 * 3 and differ at every other count. -/
def envA : EngineEnv :=
  { envW with index_search := fun _ n =>
      if n = 18 then [((1 : ℚ), (0 : Int))] else [] }

def envB : EngineEnv :=
  { envW with index_search := fun _ n =>
      if n = 18 then [((1 : ℚ), (0 : Int))] else [((2 : ℚ), (1 : Int))] }

/-- Concrete evaluation of the baseline search in `envW`. -/
theorem search_baseline_envW_eval : search_baseline envW "q" (1 * 6) =
    [{ db_id := 0, vector_score := 1, text := "A", source := "s", page := 1,
       final_score := none },
     { db_id := 1, vector_score := 0, text := "B", source := "s", page := 2,
       final_score := none }] := by
  decide

/-- Concrete evaluation of the hybrid search in `envW`: fragment 0 gets
normalized scores (1, 1), fused score 1; fragment 1 gets (0, 0), fused 0;
`k = 1` keeps only fragment 0. -/
theorem search_hybrid_envW_eval : search_hybrid envW "q" 1 (6 / 10) =
    [{ db_id := 0, vector_score := 1, text := "A", source := "s", page := 1,
       final_score := some 1 }] := by
  have hnv : normalize_scores
      ((search_baseline envW "q" (1 * 6)).map fun res => res.vector_score) =
        some [1, 0] := by
    rw [search_baseline_envW_eval]
    simp [normalize_scores, List.min?, List.max?]
  have hkw : keyword_scores (envW.fts_query (sanitize_query "q"))
      (search_baseline envW "q" (1 * 6)) = [-10, -11] := by
    rw [search_baseline_envW_eval]
    norm_num [keyword_scores, min_fts_score, envW, List.lookup, List.min?]
    rfl
  have hnk : normalize_scores (keyword_scores (envW.fts_query (sanitize_query "q"))
      (search_baseline envW "q" (1 * 6))) = some [1, 0] := by
    rw [hkw]
    simp [normalize_scores, List.min?, List.max?]
    norm_num
  rw [search_hybrid_eq hnv hnk, search_baseline_envW_eval]
  norm_num [List.insertionSort, List.orderedInsert, final_score_ge]

/-! ### Remaining witnesses and the C7 counterexample -/

/-- Witness for C1 at `envW`, `k = 1`, `alpha = 6/10`. -/
theorem hybrid_fuse_sort_take_witness :
    (0 ≤ (6 / 10 : ℚ)) ∧ ((6 / 10 : ℚ) ≤ 1) ∧
    search_baseline envW "q" (6 * 1) ≠ [] ∧
    (∃ nv nk rest,
      normalize_scores
        ((search_baseline envW "q" (6 * 1)).map fun res => res.vector_score) = some nv ∧
      normalize_scores (keyword_scores (envW.fts_query (sanitize_query "q"))
        (search_baseline envW "q" (6 * 1))) = some nk ∧
      (search_hybrid envW "q" 1 (6 / 10) ++ rest).Perm
        (((search_baseline envW "q" (6 * 1)).zip (nv.zip nk)).map fun p =>
          { p.1 with
            final_score := some (6 / 10 * p.2.1 + (1 - 6 / 10) * p.2.2) }) ∧
      List.Sorted final_score_ge (search_hybrid envW "q" 1 (6 / 10) ++ rest) ∧
      search_hybrid envW "q" 1 (6 / 10) =
        (search_hybrid envW "q" 1 (6 / 10) ++ rest).take 1 ∧
      (search_hybrid envW "q" 1 (6 / 10)).length =
        min 1 (search_baseline envW "q" (6 * 1)).length) :=
  ⟨by norm_num, by norm_num, by decide,
   hybrid_fuse_sort_take envW "q" 1 (6 / 10) (by norm_num) (by norm_num) (by decide)⟩

/-- Witness for C4 at `k = 3`: the two environments agree at request count
18 only, and the hybrid outputs coincide. -/
theorem hybrid_requests_six_k_witness :
    search_baseline envA "q" (6 * 3) = search_baseline envB "q" (6 * 3) ∧
    search_hybrid envA "q" 3 (6 / 10) = search_hybrid envB "q" 3 (6 / 10) :=
  ⟨by decide, hybrid_requests_six_k envA envB "q" 3 (6 / 10) (by decide) rfl⟩

/-- Witness for C8 at the empty-index environment. -/
theorem hybrid_empty_pool_witness :
    search_baseline envE "q" (6 * 1) = [] ∧
    (search_hybrid envE "q" 1 (6 / 10) = [] ∧
      ∀ fq, search_hybrid { envE with fts_query := fq } "q" 1 (6 / 10) = []) :=
  ⟨by decide, hybrid_empty_pool envE "q" 1 (6 / 10) (by decide)⟩

/-- Witness for C9: the hybrid top result of `envW`, stripped of its fused
score, is a member of the baseline pool. -/
theorem hybrid_results_from_pool_witness :
    ({ db_id := 0, vector_score := 1, text := "A", source := "s", page := 1,
       final_score := none } : Candidate) ∈ search_baseline envW "q" (6 * 1) :=
  hybrid_results_from_pool envW "q" 1 (6 / 10)
    { db_id := 0, vector_score := 1, text := "A", source := "s", page := 1,
      final_score := some 1 }
    (by rw [search_hybrid_envW_eval]; exact List.mem_singleton.mpr rfl)

/-- Witness for C10 at `envW`, `k = 1`, `alpha = 6/10`. -/
theorem hybrid_sort_stability_witness :
    search_baseline envW "q" (6 * 1) ≠ [] ∧
    (∃ nv nk,
      normalize_scores
        ((search_baseline envW "q" (6 * 1)).map fun res => res.vector_score) = some nv ∧
      normalize_scores (keyword_scores (envW.fts_query (sanitize_query "q"))
        (search_baseline envW "q" (6 * 1))) = some nk ∧
      (∀ a b,
        List.Sublist [a, b]
          (((search_baseline envW "q" (6 * 1)).zip (nv.zip nk)).map fun p =>
            { p.1 with
              final_score := some (6 / 10 * p.2.1 + (1 - 6 / 10) * p.2.2) }) →
        a.final_score = b.final_score →
        List.Sublist [a, b]
          ((((search_baseline envW "q" (6 * 1)).zip (nv.zip nk)).map fun p =>
            { p.1 with
              final_score := some (6 / 10 * p.2.1 + (1 - 6 / 10) * p.2.2) }).insertionSort
              final_score_ge)) ∧
      search_hybrid envW "q" 1 (6 / 10) =
        (((((search_baseline envW "q" (6 * 1)).zip (nv.zip nk)).map fun p =>
          { p.1 with
            final_score := some (6 / 10 * p.2.1 + (1 - 6 / 10) * p.2.2) }).insertionSort
            final_score_ge)).take 1) :=
  ⟨by decide, hybrid_sort_stability envW "q" 1 (6 / 10) (by decide)⟩

/-- Witness for C6 at a hybrid-mode request against `envW`. -/
theorem mode_flag_correctness_witness :
    ask envW (some { q := some "q", k := some 1, mode := some "hybrid" }) = Except.ok
      { answer := get_extractive_answer (search_hybrid envW "q" 1 (6 / 10)) (1 / 2)
        contexts := format_contexts envW (search_hybrid envW "q" 1 (6 / 10))
        reranker_used := true } ∧
    (∀ c ∈ search_hybrid envW "q" 1 (6 / 10), c.final_score.isSome) ∧
    (format_contexts envW (search_hybrid envW "q" 1 (6 / 10))).map
        (fun ctx => ctx.score) =
      (search_hybrid envW "q" 1 (6 / 10)).map
        fun res => res.final_score.getD res.vector_score :=
  (mode_flag_correctness envW { q := some "q", k := some 1, mode := some "hybrid" }
    "q" rfl).2 rfl

/-- C7 counterexample: the request `q = "x"`, `k = 0`, `mode = baseline` is
malformed under the claim (`k < 1`), yet the service answers it with a 200
response instead of an InvalidArgument failure — `k` is never validated. -/
theorem k_zero_request_not_rejected :
    ask envE (some { q := some "x", k := some 0, mode := some "baseline" }) =
      Except.ok { answer := none, contexts := [], reranker_used := false } := by
  rfl

/-- Witness for the amended C7 theorem at a request with no query text. -/
theorem invalid_request_rejected_witness :
    ask envW (some { q := none, k := none, mode := none }) =
      Except.error "Missing q (query) in request body" ∧
    ask envW (some { q := none, k := none, mode := none }) =
      ask envE (some { q := none, k := none, mode := none }) :=
  (invalid_request_rejected envW envE
    (some { q := none, k := none, mode := none })).1
    (Or.inr ⟨{ q := none, k := none, mode := none }, rfl, rfl⟩)

end RagService
